import Mathlib

/-!
Verification development for the SIPO alert-correlation core
(src/ml/alert_correlation.py).

The development is a shallow embedding of the correlation pipeline:

* alerts are records of timestamp, device id, error code, customer impact
  and revenue risk (timestamps are modelled as seconds since the Unix
  epoch, a natural number; the string-valued identifiers are modelled by
  their character lists, whose lexicographic order coincides with the
  order on String by Mathlib's String.le_iff_toList_le);
* the categorical encoder models sklearn.preprocessing.LabelEncoder:
  fit_transform maps every value to its index in the ascending sorted
  list of distinct values of the batch;
* the normalizer models sklearn.preprocessing.StandardScaler over exact
  reals: per-column mean and population variance, with a zero standard
  deviation replaced by 1 (sklearn handle_zeros_in_scale);
* the eps estimator models AlertCorrelator.find_optimal_eps: sklearn
  NearestNeighbors with n_neighbors = min_samples queried on its own fit
  set, so every point counts itself among its neighbors, the distance
  column min_samples - 1 is taken, sorted, and the 75th percentile with
  linear interpolation (numpy.percentile) is returned.  The ValueError
  sklearn raises when the batch has fewer than n_neighbors points (or
  n_neighbors is 0) is modelled as the result none;
* the clusterer models sklearn.cluster.DBSCAN label assignment
  (Euclidean metric, closed balls of radius eps, a core point has at
  least min_samples neighbors counting itself, clusters grown
  depth-first in index order, noise labelled -1);
* create_incidents and correlate_alerts follow the python source line by
  line; python list.sort with a key and reverse=True is a stable sort,
  modelled by insertion sort on the reversed order.

Sorting of real-valued feature data uses classical decidability of the
order on the reals, hence a few definitions in that layer are
noncomputable; the incident layer is fully executable.
-/

namespace SIPO

/-- Priority tier of an incident, from the thresholds in create_incidents. -/
inductive Priority where
  | High
  | Medium
  | Low
deriving DecidableEq, Repr

/-- Identifier values (device ids, error codes): a string, modelled by
its list of characters so that the lexicographic order is computable. -/
abbrev Str : Type := List Char

/-- An input alert record: one row of the alerts CSV.  The timestamp is
modelled as seconds since the Unix epoch. -/
structure Alert where
  timestamp : ℕ
  device_id : Str
  error_code : Str
  customer_impact : ℕ
  revenue_risk : ℕ
deriving DecidableEq, Repr

/-- An incident record as built by AlertCorrelator.create_incidents. -/
structure Incident where
  incident_id : ℕ
  alert_count : ℕ
  alerts : List Alert
  priority : Priority
  total_customers : ℕ
  total_revenue_risk : ℕ
  primary_error : Str
  affected_devices : List Str
  start_time : ℕ
  end_time : ℕ
deriving DecidableEq, Repr

/-- Ascending sort, the model of python sorted(...) and numpy.sort. -/
def sortedAsc {α : Type _} [LinearOrder α] (l : List α) : List α :=
  l.insertionSort (· ≤ ·)

/-- Priority from a total revenue risk, the if/elif/else chain of
create_incidents: over 500000 High, over 100000 Medium, else Low. -/
def priorityOf (risk : ℕ) : Priority :=
  if risk > 500000 then Priority.High
  else if risk > 100000 then Priority.Medium
  else Priority.Low

/-- Greatest number of occurrences of any element of the list. -/
def maxCount (l : List Str) : ℕ :=
  (l.map (fun v => l.count v)).foldr max 0

/-- The value pandas Series.mode().iloc[0] returns: among the values with
the greatest number of occurrences, the least in lexicographic order
(pandas mode returns the modes sorted ascending). -/
def pandasMode (l : List Str) : Str :=
  ((sortedAsc l.dedup).filter (fun v => l.count v = maxCount l)).headD []

/-- Least element of a list of naturals, the model of pandas .min() on a
nonempty column. -/
def listMin : List ℕ → ℕ
  | [] => 0
  | x :: xs => xs.foldl min x

/-- Greatest element of a list of naturals, the model of pandas .max(). -/
def listMax : List ℕ → ℕ
  | [] => 0
  | x :: xs => xs.foldl max x

/-- Distinct cluster ids in ascending order with the noise label -1
skipped: the loop header for cluster_id in sorted(set(cluster_labels))
together with the continue on -1. -/
def clusterLabelsSorted (labels : List ℤ) : List ℤ :=
  (sortedAsc labels.dedup).filter (fun c => c ≠ -1)

/-- Member alerts of one cluster: the rows of the dataframe whose cluster
column equals c, in input order. -/
def clusterMembers (alerts : List Alert) (labels : List ℤ) (c : ℤ) : List Alert :=
  ((alerts.zip labels).filter (fun p => p.2 = c)).map Prod.fst

/-- Alerts labelled noise (-1), in input order: the rows iterated by the
noise loop of create_incidents. -/
def noiseAlerts (alerts : List Alert) (labels : List ℤ) : List Alert :=
  ((alerts.zip labels).filter (fun p => p.2 = -1)).map Prod.fst

/-- The incident dictionary built for one cluster in create_incidents.
The incident id is the position in the incidents list at append time,
1-based. -/
def mkClusterIncident (idx : ℕ) (mem : List Alert) : Incident :=
  { incident_id := idx
    alert_count := mem.length
    alerts := mem
    priority := priorityOf (mem.map Alert.revenue_risk).sum
    total_customers := (mem.map Alert.customer_impact).sum
    total_revenue_risk := (mem.map Alert.revenue_risk).sum
    primary_error := pandasMode (mem.map Alert.error_code)
    affected_devices := sortedAsc (mem.map Alert.device_id).dedup
    start_time := listMin (mem.map Alert.timestamp)
    end_time := listMax (mem.map Alert.timestamp) }

/-- The incident dictionary built for one noise alert in
create_incidents: a singleton incident with priority hard-coded Low. -/
def mkNoiseIncident (idx : ℕ) (a : Alert) : Incident :=
  { incident_id := idx
    alert_count := 1
    alerts := [a]
    priority := Priority.Low
    total_customers := a.customer_impact
    total_revenue_risk := a.revenue_risk
    primary_error := a.error_code
    affected_devices := [a.device_id]
    start_time := a.timestamp
    end_time := a.timestamp }

/-- The cluster incidents in loop order: the k-th distinct non-noise
label (0-based) yields the incident with id k + 1. -/
def rawClusterIncidents (alerts : List Alert) (labels : List ℤ) : List Incident :=
  (clusterLabelsSorted labels).enum.map
    (fun p => mkClusterIncident (p.1 + 1) (clusterMembers alerts labels p.2))

/-- The noise incidents in loop order; ids continue after the cluster
incidents, since the python code uses len(incidents) + 1 at append
time. -/
def rawNoiseIncidents (alerts : List Alert) (labels : List ℤ) : List Incident :=
  (noiseAlerts alerts labels).enum.map
    (fun p => mkNoiseIncident ((clusterLabelsSorted labels).length + p.1 + 1) p.2)

/-- The incidents list of create_incidents just before the final sort:
all cluster incidents, then all noise incidents. -/
def rawIncidents (alerts : List Alert) (labels : List ℤ) : List Incident :=
  rawClusterIncidents alerts labels ++ rawNoiseIncidents alerts labels

/-- Comparison used by the final sort of create_incidents: sort by
total_revenue_risk, highest first. -/
def riskGE (x y : Incident) : Prop :=
  y.total_revenue_risk ≤ x.total_revenue_risk

instance : DecidableRel riskGE :=
  fun _ _ => Nat.decLe _ _

instance : IsTotal Incident riskGE :=
  ⟨fun a b => le_total b.total_revenue_risk a.total_revenue_risk⟩

instance : IsTrans Incident riskGE :=
  ⟨fun _ _ _ hab hbc => le_trans hbc hab⟩

/-- AlertCorrelator.create_incidents: build one incident per non-noise
cluster, then one per noise alert, then stable-sort the whole list by
total revenue risk descending (python list.sort with reverse=True is
stable; insertion sort on riskGE realizes exactly that stable
descending order). -/
def create_incidents (alerts : List Alert) (labels : List ℤ) : List Incident :=
  (rawIncidents alerts labels).insertionSort riskGE

/-- First index at which the value occurs in the list (0 when absent);
the position sklearn LabelEncoder.transform assigns, via searchsorted on
the sorted class array. -/
def idxOf (v : Str) : List Str → ℕ
  | [] => 0
  | w :: t => if v = w then 0 else idxOf v t + 1

/-- The classes_ array of a fitted LabelEncoder: numpy.unique of the
batch values, that is the distinct values sorted ascending. -/
def sortedClasses (vals : List Str) : List Str :=
  sortedAsc vals.dedup

/-- LabelEncoder.fit_transform on one batch: every value is replaced by
its index in the sorted distinct-value array.  The python code refits on
every call, so the encoding depends on the current batch only. -/
def labelEncode (vals : List Str) : List ℕ :=
  vals.map (fun v => idxOf v (sortedClasses vals))

/-- Distinct values of the batch in first-seen order.  Written from the
specification's wording of the encoding contract, to be compared with
the sorted-order encoding the code performs. -/
def firstSeenDistinct (vals : List Str) : List Str :=
  vals.foldl (fun acc a => if a ∈ acc then acc else acc ++ [a]) []

/-- Categorical encoding in first-seen order, the encoding the
specification describes: every value replaced by its index in the
first-seen distinct-value list. -/
def firstSeenEncode (vals : List Str) : List ℕ :=
  vals.map (fun v => idxOf v (firstSeenDistinct vals))

/-- Mode with first-encountered tie-break, as the specification words
the primary_error aggregate: among the values with the greatest number
of occurrences, the one seen first in the member list. -/
def firstMode (l : List Str) : Str :=
  ((firstSeenDistinct l).filter (fun v => l.count v = maxCount l)).headD []

/-- Euclidean distance between two feature vectors, the metric used by
sklearn NearestNeighbors and DBSCAN. -/
noncomputable def euclDist (u v : List ℝ) : ℝ :=
  Real.sqrt (((u.zip v).map (fun p => (p.1 - p.2)^2)).sum)

/-- The column distances[:, min_samples - 1] of
NearestNeighbors(n_neighbors = min_samples).kneighbors(features): for
every point, the k-th smallest distance to a point of the batch, the
query point itself included (it is its own nearest neighbor at distance
0 in the fit set). -/
noncomputable def kDistances (pts : List (List ℝ)) (k : ℕ) : List ℝ :=
  pts.map (fun p => (sortedAsc (pts.map (euclDist p))).getD (k - 1) 0)

/-- numpy.percentile(l, 75) with the default linear interpolation: with
n values sorted ascending, the value at fractional rank 3 * (n - 1) / 4,
interpolating between the two adjacent order statistics. -/
noncomputable def percentile75 (l : List ℝ) : ℝ :=
  let s := sortedAsc l
  let i := 3 * (l.length - 1) / 4
  s.getD i 0 + (((3 * (l.length - 1)) % 4 : ℕ) : ℝ) / 4 * (s.getD (i + 1) 0 - s.getD i 0)

/-- AlertCorrelator.find_optimal_eps: sort the k-distances ascending and
return their 75th percentile.  The result none models the ValueError
sklearn raises from kneighbors when the batch has fewer than
n_neighbors = min_samples points, or min_samples is 0. -/
noncomputable def find_optimal_eps (pts : List (List ℝ)) (min_samples : ℕ) : Option ℝ :=
  if min_samples = 0 ∨ pts.length < min_samples then none
  else some (percentile75 (sortedAsc (kDistances pts min_samples)))

/-- Distance from point i to its k-th nearest neighbor with the point
itself excluded.  Written from the specification's wording of the eps
estimation algorithm, to be compared with the code's kDistances. -/
noncomputable def kthDistExclSelf (pts : List (List ℝ)) (i k : ℕ) : ℝ :=
  (sortedAsc ((pts.eraseIdx i).map (euclDist (pts.getD i [])))).getD (k - 1) 0

/-- The eps estimator exactly as the specification describes it: the
distance of every vector to its minPts-th nearest neighbor excluding the
vector itself, collected, sorted ascending, 75th percentile; failing on
batches of fewer than minPts + 1 vectors. -/
noncomputable def find_optimal_eps_spec (pts : List (List ℝ)) (minPts : ℕ) : Option ℝ :=
  if pts.length < minPts + 1 then none
  else some (percentile75 (sortedAsc
    ((List.range pts.length).map (fun i => kthDistExclSelf pts i minPts))))

/-- The eps estimator as the specification reads after the correction
forced by the code: the neighbor index is off by one because the vector
counts itself, so for minPts at least 2 the collected distance is the
one to the (minPts - 1)-th nearest neighbor excluding the vector, and
estimation fails only below minPts vectors. -/
noncomputable def find_optimal_eps_amended (pts : List (List ℝ)) (minPts : ℕ) : Option ℝ :=
  if minPts = 0 ∨ pts.length < minPts then none
  else some (percentile75 (sortedAsc
    ((List.range pts.length).map (fun i => kthDistExclSelf pts i (minPts - 1)))))

/-- Indices of the points within distance eps of point i, the point
itself included (sklearn neighborhoods use closed balls). -/
noncomputable def neighborIdx (pts : List (List ℝ)) (eps : ℝ) (i : ℕ) : List ℕ :=
  (List.range pts.length).filter (fun j => decide (euclDist (pts.getD i []) (pts.getD j []) ≤ eps))

/-- Core-point test of DBSCAN: at least min_samples neighbors within
eps, the point itself counted. -/
noncomputable def isCore (pts : List (List ℝ)) (eps : ℝ) (ms i : ℕ) : Bool :=
  decide (ms ≤ (neighborIdx pts eps i).length)

/-- Depth-first cluster expansion of sklearn's dbscan_inner: pop a point
from the stack, label it with the current cluster id if still
unlabelled, and push the unlabelled neighbors of core points.  The fuel
argument bounds the recursion; dbscan supplies enough for the expansion
to run to completion. -/
noncomputable def dbscanExpand (pts : List (List ℝ)) (eps : ℝ) (ms : ℕ) :
    ℕ → List ℤ → List ℕ → ℤ → List ℤ
  | 0, labels, _, _ => labels
  | _ + 1, labels, [], _ => labels
  | fuel + 1, labels, v :: stack, c =>
      if labels.getD v (-1) = -1 then
        if isCore pts eps ms v then
          dbscanExpand pts eps ms fuel (labels.set v c)
            ((neighborIdx pts eps v).filter
              (fun w => decide ((labels.set v c).getD w (-1) = -1)) ++ stack) c
        else
          dbscanExpand pts eps ms fuel (labels.set v c) stack c
      else
        dbscanExpand pts eps ms fuel labels stack c

/-- Outer loop of sklearn's dbscan_inner: scan the points in index
order; every unlabelled core point seeds a new cluster, grown by
dbscanExpand, and the cluster counter increments. -/
noncomputable def dbscanSeeds (pts : List (List ℝ)) (eps : ℝ) (ms : ℕ) :
    List ℕ → List ℤ → ℤ → List ℤ
  | [], labels, _ => labels
  | i :: rest, labels, c =>
      if labels.getD i (-1) = -1 ∧ isCore pts eps ms i then
        dbscanSeeds pts eps ms rest
          (dbscanExpand pts eps ms ((pts.length + 1) * (pts.length + 1)) labels [i] c) (c + 1)
      else
        dbscanSeeds pts eps ms rest labels c

/-- sklearn.cluster.DBSCAN(eps, min_samples).fit_predict on the feature
rows: labels start at -1 (noise) and clusters are discovered in index
order starting at id 0. -/
noncomputable def dbscan (pts : List (List ℝ)) (eps : ℝ) (ms : ℕ) : List ℤ :=
  dbscanSeeds pts eps ms (List.range pts.length) (List.replicate pts.length (-1)) 0

/-- Per-column mean of the feature matrix, StandardScaler fit. -/
noncomputable def colMean (rows : List (List ℝ)) (j : ℕ) : ℝ :=
  ((rows.map (fun r => r.getD j 0)).sum) / rows.length

/-- Per-column population variance (ddof = 0, as sklearn computes). -/
noncomputable def colVar (rows : List (List ℝ)) (j : ℕ) : ℝ :=
  ((rows.map (fun r => (r.getD j 0 - colMean rows j)^2)).sum) / rows.length

/-- Per-column scale of StandardScaler: the standard deviation, with an
exact zero replaced by 1 (sklearn handle_zeros_in_scale), so that
constant columns divide by 1 instead of faulting. -/
noncomputable def colScale (rows : List (List ℝ)) (j : ℕ) : ℝ :=
  if colVar rows j = 0 then 1 else Real.sqrt (colVar rows j)

/-- StandardScaler.fit_transform: center every entry by its column mean
and divide by the column scale. -/
noncomputable def standardize (rows : List (List ℝ)) : List (List ℝ) :=
  rows.map (fun r => (List.range r.length).map
    (fun j => (r.getD j 0 - colMean rows j) / colScale rows j))

/-- Hour of day extracted from an epoch-second timestamp, the pandas
dt.hour feature. -/
def hourOf (t : ℕ) : ℕ := t / 3600 % 24

/-- Day of week (Monday 0) extracted from an epoch-second timestamp, the
pandas dt.dayofweek feature; epoch day zero was a Thursday. -/
def dowOf (t : ℕ) : ℕ := (t / 86400 + 3) % 7

instance : Inhabited Alert :=
  ⟨⟨0, [], [], 0, 0⟩⟩

/-- The unscaled six-column feature matrix of preprocess_features, one
row per alert: encoded device id, encoded error code, customer impact,
revenue risk, hour of day, day of week. -/
noncomputable def rawFeatureRows (alerts : List Alert) : List (List ℝ) :=
  (List.range alerts.length).map (fun i =>
    [ ((labelEncode (alerts.map Alert.device_id)).getD i 0 : ℝ),
      ((labelEncode (alerts.map Alert.error_code)).getD i 0 : ℝ),
      ((alerts.getD i default).customer_impact : ℝ),
      ((alerts.getD i default).revenue_risk : ℝ),
      (hourOf (alerts.getD i default).timestamp : ℝ),
      (dowOf (alerts.getD i default).timestamp : ℝ) ])

/-- AlertCorrelator.preprocess_features: encode, then normalize with the
freshly fitted scaler. -/
noncomputable def preprocess_features (alerts : List Alert) : List (List ℝ) :=
  standardize (rawFeatureRows alerts)

/-- Failure surfaced by the pipeline: the eps estimation error raised
when the batch is too small to form the requested neighborhoods. -/
inductive CorrErr where
  | estimation
deriving DecidableEq, Repr

/-- AlertCorrelator.cluster_alerts: estimate eps when none is supplied
(propagating the estimation failure), then run DBSCAN. -/
noncomputable def cluster_alerts (features : List (List ℝ)) (eps : Option ℝ)
    (min_samples : ℕ) : Except CorrErr (List ℤ) :=
  match eps with
  | some e => Except.ok (dbscan features e min_samples)
  | none =>
    match find_optimal_eps features min_samples with
    | none => Except.error CorrErr.estimation
    | some e => Except.ok (dbscan features e min_samples)

/-- AlertCorrelator.correlate_alerts on a loaded batch: preprocess,
cluster with the default parameters eps = None and min_samples = 5
(the python entry point accepts a CSV path and an output path only, so
callers cannot pass clustering parameters), and build the ranked
incident list.  CSV loading and JSON saving are I/O collaborators
outside the embedding; an uncaught python exception is the error
result. -/
noncomputable def correlate_alerts (alerts : List Alert) : Except CorrErr (List Incident) :=
  match cluster_alerts (preprocess_features alerts) none 5 with
  | Except.error e => Except.error e
  | Except.ok labels => Except.ok (create_incidents alerts labels)

/-- The entry point as the specification describes it, taking the batch
together with minPts and an optional explicit eps override that
bypasses estimation.  Written from the specification's wording, to be
compared with correlate_alerts. -/
noncomputable def correlate_alerts_spec (alerts : List Alert) (minPts : ℕ) (eps : Option ℝ) :
    Except CorrErr (List Incident) :=
  match cluster_alerts (preprocess_features alerts) eps minPts with
  | Except.error e => Except.error e
  | Except.ok labels => Except.ok (create_incidents alerts labels)

/-- Example alert with a low revenue risk, cluster 0 of the two-cluster
example batch. -/
def exAlertLow : Alert :=
  { timestamp := 0, device_id := "T1".data, error_code := "E".data,
    customer_impact := 1, revenue_risk := 100 }

/-- Example alert with a higher revenue risk, cluster 1 of the
two-cluster example batch. -/
def exAlertHigh : Alert :=
  { timestamp := 60, device_id := "T2".data, error_code := "E".data,
    customer_impact := 2, revenue_risk := 200 }

/-- Example noise alert whose revenue risk is above the High threshold. -/
def exNoiseAlert : Alert :=
  { timestamp := 5, device_id := "T1".data, error_code := "BGP".data,
    customer_impact := 3, revenue_risk := 600000 }

/-- Example alert carrying error code B, seen first in its cluster. -/
def exAlertB : Alert :=
  { timestamp := 0, device_id := "D".data, error_code := "B".data,
    customer_impact := 1, revenue_risk := 1 }

/-- Example alert carrying error code A, seen second in its cluster. -/
def exAlertA : Alert :=
  { timestamp := 0, device_id := "D".data, error_code := "A".data,
    customer_impact := 1, revenue_risk := 1 }

/-- The single cluster incident of the batch of exAlertB and exAlertA
labelled into one cluster. -/
def exClusterInc : Incident :=
  mkClusterIncident 1 (clusterMembers [exAlertB, exAlertA] [0, 0] 0)

/-- Example singleton batch member for the entry-point counterexample. -/
def exSoloAlert : Alert :=
  { timestamp := 0, device_id := "T1".data, error_code := "E".data,
    customer_impact := 1, revenue_risk := 7 }

/-- Sorting ascending is invariant under permutation of the input: there
is only one sorted arrangement of a multiset under a linear order. -/
lemma sortedAsc_eq_of_perm {α : Type _} [LinearOrder α] {l₁ l₂ : List α}
    (h : l₁.Perm l₂) : sortedAsc l₁ = sortedAsc l₂ := by
  apply List.eq_of_perm_of_sorted
    ((List.perm_insertionSort _ l₁).trans (h.trans (List.perm_insertionSort _ l₂).symm))
    (List.sorted_insertionSort _ l₁) (List.sorted_insertionSort _ l₂)

/-- Grouping a list of labelled pairs by a duplicate-free list of keys
and concatenating the groups permutes the pairs whose label occurs among
the keys. -/
lemma flatten_filter_key_perm (P : List (Alert × ℤ)) (ks : List ℤ) (hnd : ks.Nodup) :
    ((ks.map (fun c => P.filter (fun p => p.2 = c))).flatten).Perm
      (P.filter (fun p => decide (p.2 ∈ ks))) := by
  induction ks with
  | nil => simp
  | cons c ks ih =>
    rw [List.nodup_cons] at hnd
    have h2 := ih hnd.2
    simp only [List.map_cons, List.flatten_cons]
    refine (h2.append_left _).trans ?_
    have hQ1 : (P.filter (fun p => decide (p.2 ∈ c :: ks))).filter (fun p => decide (p.2 = c))
        = P.filter (fun p => decide (p.2 = c)) := by
      rw [List.filter_filter]
      refine List.filter_congr ?_
      intro x _
      by_cases hx : x.2 = c <;> simp [hx]
    have hQ2 : (P.filter (fun p => decide (p.2 ∈ c :: ks))).filter (fun p => !(decide (p.2 = c)))
        = P.filter (fun p => decide (p.2 ∈ ks)) := by
      rw [List.filter_filter]
      refine List.filter_congr ?_
      intro x _
      by_cases hx : x.2 = c
      · simp [hx, hnd.1]
      · simp [hx]
    have hfa := List.filter_append_perm (fun p => decide (p.2 = c))
      (P.filter (fun p => decide (p.2 ∈ c :: ks)))
    rw [hQ1, hQ2] at hfa
    exact hfa

/-- The sorted distinct non-noise labels carry no duplicates. -/
lemma clusterLabelsSorted_nodup (labels : List ℤ) : (clusterLabelsSorted labels).Nodup := by
  refine List.Nodup.filter _ ?_
  exact ((List.perm_insertionSort _ _).nodup_iff).mpr (List.nodup_dedup labels)

/-- Membership in the sorted distinct non-noise labels. -/
lemma mem_clusterLabelsSorted {labels : List ℤ} {c : ℤ} :
    c ∈ clusterLabelsSorted labels ↔ c ∈ labels ∧ c ≠ -1 := by
  rw [clusterLabelsSorted, List.mem_filter, sortedAsc, List.mem_insertionSort, List.mem_dedup]
  simp

/-- The member lists of the cluster incidents, concatenated, permute the
non-noise rows of the labelled batch. -/
lemma rawCluster_alerts_perm (alerts : List Alert) (labels : List ℤ) :
    (((rawClusterIncidents alerts labels).map Incident.alerts).flatten).Perm
      (((alerts.zip labels).filter (fun p => decide (p.2 ≠ -1))).map Prod.fst) := by
  have h1 : (rawClusterIncidents alerts labels).map Incident.alerts
      = (clusterLabelsSorted labels).map (fun c => clusterMembers alerts labels c) := by
    rw [rawClusterIncidents, List.map_map]
    conv_rhs => rw [← List.enum_map_snd (clusterLabelsSorted labels), List.map_map]
    rfl
  rw [h1]
  have h2 : (clusterLabelsSorted labels).map (fun c => clusterMembers alerts labels c)
      = ((clusterLabelsSorted labels).map
          (fun c => (alerts.zip labels).filter (fun p => p.2 = c))).map (List.map Prod.fst) := by
    rw [List.map_map]
    rfl
  rw [h2, ← List.map_flatten]
  have h3 := (flatten_filter_key_perm (alerts.zip labels) (clusterLabelsSorted labels)
    (clusterLabelsSorted_nodup labels)).map Prod.fst
  refine h3.trans ?_
  have h4 : (alerts.zip labels).filter (fun p => decide (p.2 ∈ clusterLabelsSorted labels))
      = (alerts.zip labels).filter (fun p => decide (p.2 ≠ -1)) := by
    refine List.filter_congr ?_
    intro x hx
    have hxl : x.2 ∈ labels := (List.of_mem_zip hx).2
    simp [mem_clusterLabelsSorted, hxl]
  rw [h4]

/-- The member lists of the noise incidents, concatenated, are exactly
the noise rows of the labelled batch in input order. -/
lemma rawNoise_alerts_flatten (alerts : List Alert) (labels : List ℤ) :
    ((rawNoiseIncidents alerts labels).map Incident.alerts).flatten = noiseAlerts alerts labels := by
  rw [rawNoiseIncidents, List.map_map]
  have h1 : (Incident.alerts ∘ fun p : ℕ × Alert =>
      mkNoiseIncident ((clusterLabelsSorted labels).length + p.1 + 1) p.2)
      = (fun a => [a]) ∘ Prod.snd := rfl
  rw [h1, ← List.map_map, List.enum_map_snd]
  induction noiseAlerts alerts labels with
  | nil => rfl
  | cons a t ih => simp [ih]

/-- Before the final sort, the incident ids are exactly 1, 2, ... in
construction order: the python code appends with id len(incidents) + 1. -/
lemma rawIncidents_ids (alerts : List Alert) (labels : List ℤ) :
    (rawIncidents alerts labels).map Incident.incident_id
      = List.range' 1 (rawIncidents alerts labels).length := by
  have hc : (rawClusterIncidents alerts labels).map Incident.incident_id
      = List.range' 1 (clusterLabelsSorted labels).length := by
    rw [rawClusterIncidents, List.map_map]
    have h1 : (Incident.incident_id ∘ fun p : ℕ × ℤ =>
        mkClusterIncident (p.1 + 1) (clusterMembers alerts labels p.2))
        = (fun i => 1 + i) ∘ Prod.fst := by
      funext p
      simp [mkClusterIncident, Nat.add_comm]
    rw [h1, ← List.map_map, List.enum_map_fst, List.range_eq_range', List.map_add_range']
  have hn : (rawNoiseIncidents alerts labels).map Incident.incident_id
      = List.range' (1 + (clusterLabelsSorted labels).length) (noiseAlerts alerts labels).length := by
    rw [rawNoiseIncidents, List.map_map]
    have h1 : (Incident.incident_id ∘ fun p : ℕ × Alert =>
        mkNoiseIncident ((clusterLabelsSorted labels).length + p.1 + 1) p.2)
        = (fun i => (1 + (clusterLabelsSorted labels).length) + i) ∘ Prod.fst := by
      funext p
      simp [mkNoiseIncident]
      omega
    rw [h1, ← List.map_map, List.enum_map_fst, List.range_eq_range', List.map_add_range']
    simp
  rw [rawIncidents, List.map_append, List.length_append, hc, hn]
  have hlc : (rawClusterIncidents alerts labels).length = (clusterLabelsSorted labels).length := by
    simp [rawClusterIncidents]
  have hln : (rawNoiseIncidents alerts labels).length = (noiseAlerts alerts labels).length := by
    simp [rawNoiseIncidents]
  rw [hlc, hln]
  have h2 := List.range'_append 1 (clusterLabelsSorted labels).length
    (noiseAlerts alerts labels).length 1
  simp only [one_mul] at h2
  rw [h2, Nat.add_comm]

/-- Every member of a list of naturals is bounded by the fold of max. -/
lemma le_foldr_max {x : ℕ} {m : List ℕ} (h : x ∈ m) : x ≤ m.foldr max 0 := by
  induction m with
  | nil => cases h
  | cons b t ih =>
    rcases List.mem_cons.mp h with rfl | h2
    · exact le_max_left _ _
    · exact le_trans (ih h2) (le_max_right _ _)

/-- The fold of max over a nonempty list of naturals is attained. -/
lemma foldr_max_mem (m : List ℕ) (h : m ≠ []) : m.foldr max 0 ∈ m := by
  induction m with
  | nil => exact absurd rfl h
  | cons b t ih =>
    by_cases ht : t = []
    · subst ht
      simp
    · rcases max_choice b (t.foldr max 0) with hb | hb
      · rw [List.foldr_cons, hb]
        exact List.mem_cons_self _ _
      · rw [List.foldr_cons, hb]
        exact List.mem_cons_of_mem _ (ih ht)

/-- pandasMode of a nonempty list is a member, has maximal multiplicity,
and is the least value among those of maximal multiplicity. -/
lemma pandasMode_spec (l : List Str) (hl : l ≠ []) :
    pandasMode l ∈ l
    ∧ (∀ v ∈ l, l.count v ≤ l.count (pandasMode l))
    ∧ ∀ v ∈ l, l.count v = l.count (pandasMode l) → pandasMode l ≤ v := by
  have hmem : maxCount l ∈ l.map (fun v => l.count v) :=
    foldr_max_mem _ (by simpa using hl)
  obtain ⟨w, hwl, hwc⟩ := List.mem_map.mp hmem
  have hwS : w ∈ sortedAsc l.dedup := by
    rw [sortedAsc, List.mem_insertionSort, List.mem_dedup]
    exact hwl
  have hwF : w ∈ (sortedAsc l.dedup).filter (fun v => l.count v = maxCount l) :=
    List.mem_filter.mpr ⟨hwS, by simp [hwc]⟩
  have hFne : (sortedAsc l.dedup).filter (fun v => l.count v = maxCount l) ≠ [] :=
    List.ne_nil_of_mem hwF
  have hFs : List.Sorted (· ≤ ·) ((sortedAsc l.dedup).filter (fun v => l.count v = maxCount l)) :=
    List.Sorted.filter _ (List.sorted_insertionSort _ _)
  obtain ⟨x, t, hxt⟩ := List.exists_cons_of_ne_nil hFne
  have hmode : pandasMode l = x := by
    rw [pandasMode, hxt]
    rfl
  have hxF : x ∈ (sortedAsc l.dedup).filter (fun v => l.count v = maxCount l) := by
    rw [hxt]
    exact List.mem_cons_self _ _
  have hxc : l.count x = maxCount l := by
    have h1 := (List.mem_filter.mp hxF).2
    simpa using h1
  have hxl : x ∈ l := by
    have h1 := (List.mem_filter.mp hxF).1
    rwa [sortedAsc, List.mem_insertionSort, List.mem_dedup] at h1
  refine ⟨hmode ▸ hxl, ?_, ?_⟩
  · intro v hv
    rw [hmode, hxc, maxCount]
    exact le_foldr_max (List.mem_map_of_mem _ hv)
  · intro v hv hvc
    rw [hmode] at hvc ⊢
    have hvF : v ∈ (sortedAsc l.dedup).filter (fun u => l.count u = maxCount l) := by
      refine List.mem_filter.mpr ⟨?_, by simp [hvc, hxc]⟩
      rw [sortedAsc, List.mem_insertionSort, List.mem_dedup]
      exact hv
    rw [hxt] at hvF
    rcases List.mem_cons.mp hvF with rfl | hvt
    · exact le_refl _
    · rw [hxt] at hFs
      exact List.rel_of_sorted_cons hFs _ hvt

/-- idxOf of a member is a valid index. -/
lemma idxOf_lt_length {v : Str} {S : List Str} (h : v ∈ S) : idxOf v S < S.length := by
  induction S with
  | nil => cases h
  | cons w t ih =>
    by_cases hv : v = w
    · simp [idxOf, hv]
    · rcases List.mem_cons.mp h with h1 | h1
      · exact absurd h1 hv
      · simpa [idxOf, hv] using ih h1

/-- The list at the index idxOf of a member is the member itself. -/
lemma getElem_idxOf {v : Str} {S : List Str} (h : v ∈ S) (hl : idxOf v S < S.length) :
    S[idxOf v S] = v := by
  induction S with
  | nil => cases h
  | cons w t ih =>
    by_cases hv : v = w
    · simp [idxOf, hv]
    · rcases List.mem_cons.mp h with h1 | h1
      · exact absurd h1 hv
      · have ht : idxOf v t < t.length := idxOf_lt_length h1
        simpa [idxOf, hv] using ih h1 ht

/-- The class array of the encoder is strictly sorted: sorted ascending
and duplicate-free. -/
lemma sortedClasses_strictSorted (vals : List Str) :
    List.Pairwise (· < ·) (sortedClasses vals) := by
  have hs : List.Pairwise (· ≤ ·) (sortedClasses vals) := List.sorted_insertionSort _ _
  have hn : (sortedClasses vals).Nodup :=
    ((List.perm_insertionSort _ _).nodup_iff).mpr (List.nodup_dedup vals)
  exact (hs.and hn).imp (fun h => lt_of_le_of_ne h.1 h.2)

/-- idxOf is injective on members of a list. -/
lemma idxOf_inj_of_mem {S : List Str} {v w : Str} (hv : v ∈ S) (hw : w ∈ S) :
    idxOf v S = idxOf w S ↔ v = w := by
  constructor
  · intro h
    have h2 := getElem_idxOf hv (idxOf_lt_length hv)
    have h3 := getElem_idxOf hw (idxOf_lt_length hw)
    rw [← h2, ← h3]
    congr 1
  · rintro rfl
    rfl

/-- On a strictly sorted list, idxOf is strictly monotone over members. -/
lemma idxOf_lt_iff_of_strictSorted {S : List Str} (hS : List.Pairwise (· < ·) S)
    {v w : Str} (hv : v ∈ S) (hw : w ∈ S) :
    idxOf v S < idxOf w S ↔ v < w := by
  have hvlen := idxOf_lt_length hv
  have hwlen := idxOf_lt_length hw
  constructor
  · intro h
    have h1 := (List.pairwise_iff_getElem.mp hS) _ _ hvlen hwlen h
    rwa [getElem_idxOf hv hvlen, getElem_idxOf hw hwlen] at h1
  · intro h
    rcases Nat.lt_trichotomy (idxOf v S) (idxOf w S) with h1 | h1 | h1
    · exact h1
    · exfalso
      rw [(idxOf_inj_of_mem hv hw).mp h1] at h
      exact lt_irrefl _ h
    · exfalso
      have h2 := (List.pairwise_iff_getElem.mp hS) _ _ hwlen hvlen h1
      rw [getElem_idxOf hv hvlen, getElem_idxOf hw hwlen] at h2
      exact absurd h (not_lt.mpr (le_of_lt h2))

/-- Euclidean distance is nonnegative. -/
lemma euclDist_nonneg (u v : List ℝ) : 0 ≤ euclDist u v := Real.sqrt_nonneg _

/-- Euclidean distance of a vector to itself is zero. -/
lemma euclDist_self (p : List ℝ) : euclDist p p = 0 := by
  have h : ((p.zip p).map (fun q => (q.1 - q.2)^2)).sum = 0 := by
    induction p with
    | nil => simp
    | cons a t ih => simp [ih]
  rw [euclDist, h, Real.sqrt_zero]

/-- Euclidean distance of one-dimensional vectors is the absolute
difference. -/
lemma euclDist_single (a b : ℝ) : euclDist [a] [b] = |a - b| := by
  simp [euclDist]
  exact Real.sqrt_sq_eq_abs _

/-- Sorting a list of nonnegative reals with an extra zero element puts
the zero in front. -/
lemma sortedAsc_cons_zero {m : List ℝ} (hm : ∀ x ∈ m, 0 ≤ x) :
    sortedAsc ((0 : ℝ) :: m) = 0 :: sortedAsc m := by
  apply List.eq_of_perm_of_sorted
    ((List.perm_insertionSort _ _).trans ((List.perm_insertionSort (· ≤ ·) m).symm.cons (0 : ℝ)))
    (List.sorted_insertionSort _ _)
  rw [List.sorted_cons]
  exact ⟨fun b hb => hm b ((List.mem_insertionSort _).mp hb), List.sorted_insertionSort _ _⟩

/-- Extracting the element at a valid index is a permutation. -/
lemma perm_getElem_cons_eraseIdx {α : Type _} (l : List α) {i : ℕ} (h : i < l.length) :
    l.Perm (l[i] :: l.eraseIdx i) := by
  conv_lhs => rw [← List.take_append_drop i l, List.drop_eq_getElem_cons h]
  rw [List.eraseIdx_eq_take_drop_succ]
  exact List.perm_middle

/-- A list of reals whose squares sum to zero is all zeros. -/
lemma sum_sq_eq_zero {l : List ℝ} (h : (l.map (fun x => x^2)).sum = 0) : ∀ x ∈ l, x = 0 := by
  induction l with
  | nil =>
    intro x hx
    cases hx
  | cons a t ih =>
    rw [List.map_cons, List.sum_cons] at h
    have ht : 0 ≤ (t.map (fun x => x^2)).sum := by
      apply List.sum_nonneg
      intro x hx
      obtain ⟨y, _, rfl⟩ := List.mem_map.mp hx
      exact sq_nonneg y
    have ha : (0:ℝ) ≤ a^2 := sq_nonneg a
    have ha0 : a^2 = 0 := by linarith
    have hs0 : (t.map (fun x => x^2)).sum = 0 := by linarith
    intro x hx
    rcases List.mem_cons.mp hx with rfl | hx2
    · exact (pow_eq_zero_iff (by norm_num)).mp ha0
    · exact ih hs0 x hx2

/-- Claim C1, amended: the final incident list is the stable descending
sort by total_revenue_risk of the list built in creation order, hence
sorted by risk and a permutation of it, and the incident ids are
assigned 1, 2, ... in creation order, before the sort, not after it. -/
theorem claim1_sort_and_ids (alerts : List Alert) (labels : List ℤ) :
    List.Sorted riskGE (create_incidents alerts labels)
    ∧ (create_incidents alerts labels).Perm (rawIncidents alerts labels)
    ∧ (rawIncidents alerts labels).map Incident.incident_id
        = List.range' 1 (rawIncidents alerts labels).length :=
  ⟨List.sorted_insertionSort _ _, List.perm_insertionSort _ _, rawIncidents_ids _ _⟩

/-- Claim C1, counterexample: on a batch of two singleton clusters with
risks 100 and 200, the incident with the strictly greatest total revenue
risk carries incident_id 2, not 1 — the ids were assigned before the
sort. -/
theorem claim1_counterexample :
    ∃ inc ∈ create_incidents [exAlertLow, exAlertHigh] [0, 1],
      (∀ inc' ∈ create_incidents [exAlertLow, exAlertHigh] [0, 1],
        inc'.total_revenue_risk ≤ inc.total_revenue_risk)
      ∧ inc.incident_id ≠ 1 := by decide

/-- Claim C2, amended: with minPts at least 2, the estimated eps is the
75th percentile of the per-point distances to the (minPts - 1)-th
nearest neighbor excluding the point itself — equivalently the minPts-th
nearest counting the point — rather than the minPts-th excluding it. -/
theorem claim2_kdist_off_by_one (pts : List (List ℝ)) (minPts : ℕ) (h2 : 2 ≤ minPts) :
    find_optimal_eps pts minPts = find_optimal_eps_amended pts minPts := by
  rw [find_optimal_eps, find_optimal_eps_amended]
  by_cases hg : minPts = 0 ∨ pts.length < minPts
  · rw [if_pos hg, if_pos hg]
  · rw [if_neg hg, if_neg hg]
    have hlist : kDistances pts minPts
        = (List.range pts.length).map (fun i => kthDistExclSelf pts i (minPts - 1)) := by
      apply List.ext_getElem
      · simp [kDistances]
      · intro n h1 h1'
        have hn : n < pts.length := by simpa [kDistances] using h1
        simp only [kDistances, List.getElem_map, List.getElem_range]
        rw [kthDistExclSelf, List.getD_eq_getElem _ _ hn]
        have hperm : (pts.map (euclDist pts[n])).Perm
            (euclDist pts[n] pts[n] :: (pts.eraseIdx n).map (euclDist pts[n])) :=
          (perm_getElem_cons_eraseIdx pts hn).map _
        rw [euclDist_self] at hperm
        rw [sortedAsc_eq_of_perm hperm, sortedAsc_cons_zero ?hnn]
        case hnn =>
          intro x hx
          obtain ⟨q, _, rfl⟩ := List.mem_map.mp hx
          exact euclDist_nonneg _ _
        rw [show minPts - 1 = (minPts - 2) + 1 by omega, List.getD_cons_succ]
        norm_num
    rw [hlist]

/-- Claim C2, witness: the amended equality instantiated on the
three-point one-dimensional batch with minPts 2. -/
theorem claim2_witness :
    2 ≤ 2 ∧ find_optimal_eps [[(0:ℝ)], [1], [3]] 2
      = find_optimal_eps_amended [[(0:ℝ)], [1], [3]] 2 :=
  ⟨le_refl 2, claim2_kdist_off_by_one [[(0:ℝ)], [1], [3]] 2 (le_refl 2)⟩

/-- Claim C2, counterexample: on the one-dimensional batch 0, 1, 3 with
minPts 2 the code estimates eps 3/2 (distances to the 2nd neighbor
counting the point itself: 1, 1, 2) while the specified algorithm,
excluding the point, collects 3, 2, 3 and returns 3. -/
theorem claim2_counterexample :
    find_optimal_eps [[(0:ℝ)], [1], [3]] 2 ≠ find_optimal_eps_spec [[(0:ℝ)], [1], [3]] 2 := by
  have h1 : find_optimal_eps [[(0:ℝ)], [1], [3]] 2 = some (3/2) := by
    norm_num [find_optimal_eps, kDistances, euclDist_single, sortedAsc, percentile75,
      List.insertionSort, List.orderedInsert, abs_of_nonpos, abs_of_nonneg]
  have h2 : find_optimal_eps_spec [[(0:ℝ)], [1], [3]] 2 = some 3 := by
    norm_num [find_optimal_eps_spec, kthDistExclSelf, euclDist_single, sortedAsc, percentile75,
      List.insertionSort, List.orderedInsert, abs_of_nonpos, abs_of_nonneg, List.range_succ,
      List.eraseIdx]
  rw [h1, h2]
  simp only [ne_eq, Option.some.injEq]
  norm_num

/-- Claim C3, amended: every noise-labelled alert yields a singleton
incident with alert_count 1 whose priority is always Low; that agrees
with the revenue-risk thresholds exactly when the alert's own revenue
risk is at most 100000. -/
theorem claim3_noise_priority (alerts : List Alert) (labels : List ℤ) (a : Alert)
    (h : (a, (-1 : ℤ)) ∈ alerts.zip labels) :
    ∃ inc ∈ create_incidents alerts labels,
      inc.alerts = [a] ∧ inc.alert_count = 1 ∧ inc.priority = Priority.Low
      ∧ (inc.priority = priorityOf a.revenue_risk ↔ a.revenue_risk ≤ 100000) := by
  have ha : a ∈ noiseAlerts alerts labels := by
    rw [noiseAlerts]
    exact List.mem_map_of_mem _ (List.mem_filter.mpr ⟨h, by simp⟩)
  obtain ⟨k, hk, hget⟩ := List.mem_iff_getElem.mp ha
  have hk' : k < (noiseAlerts alerts labels).enum.length := by
    rwa [List.enum_length]
  have hen : ((k, a) : ℕ × Alert) ∈ (noiseAlerts alerts labels).enum := by
    have h1 := List.getElem_enum (noiseAlerts alerts labels) k hk'
    rw [hget] at h1
    exact h1 ▸ List.getElem_mem hk'
  refine ⟨mkNoiseIncident ((clusterLabelsSorted labels).length + k + 1) a, ?_, rfl, rfl, rfl, ?_⟩
  · have h1 : mkNoiseIncident ((clusterLabelsSorted labels).length + k + 1) a
        ∈ rawNoiseIncidents alerts labels := by
      rw [rawNoiseIncidents]
      exact List.mem_map.mpr ⟨(k, a), hen, rfl⟩
    exact ((List.perm_insertionSort riskGE _).mem_iff).mpr (List.mem_append_right _ h1)
  · show Priority.Low = priorityOf a.revenue_risk ↔ a.revenue_risk ≤ 100000
    rw [priorityOf]
    split_ifs with h1 h2
    · exact ⟨fun hh => absurd hh (by decide), fun hh => absurd h1 (by omega)⟩
    · exact ⟨fun hh => absurd hh (by decide), fun hh => absurd h2 (by omega)⟩
    · exact ⟨fun _ => by omega, fun _ => rfl⟩

/-- Claim C3, witness: the amended statement instantiated on a
single-alert batch labelled noise. -/
theorem claim3_witness :
    (exNoiseAlert, (-1 : ℤ)) ∈ [exNoiseAlert].zip [(-1 : ℤ)]
    ∧ ∃ inc ∈ create_incidents [exNoiseAlert] [(-1 : ℤ)],
        inc.alerts = [exNoiseAlert] ∧ inc.alert_count = 1 ∧ inc.priority = Priority.Low
        ∧ (inc.priority = priorityOf exNoiseAlert.revenue_risk
            ↔ exNoiseAlert.revenue_risk ≤ 100000) :=
  ⟨by decide, claim3_noise_priority [exNoiseAlert] [(-1 : ℤ)] exNoiseAlert (by decide)⟩

/-- Claim C3, counterexample: a noise alert with revenue risk 600000
becomes an incident of priority Low, although the High/Medium/Low
thresholds applied to that risk give High — the noise priority is not
determined by the alert's revenue risk. -/
theorem claim3_counterexample :
    (create_incidents [exNoiseAlert] [-1]).map Incident.priority = [Priority.Low]
    ∧ priorityOf exNoiseAlert.revenue_risk = Priority.High := by decide

/-- Claim C4, confirmed: the produced incidents permute the cluster
incidents followed by one noise incident per noise-labelled alert in
input order, and a noise incident is always a singleton of priority Low,
whatever the alert's revenue risk. -/
theorem claim4_noise_singletons (alerts : List Alert) (labels : List ℤ) :
    (create_incidents alerts labels).Perm
      (rawClusterIncidents alerts labels ++
        (noiseAlerts alerts labels).enum.map
          (fun p => mkNoiseIncident ((clusterLabelsSorted labels).length + p.1 + 1) p.2))
    ∧ ∀ (i : ℕ) (a : Alert), (mkNoiseIncident i a).alert_count = 1
        ∧ (mkNoiseIncident i a).priority = Priority.Low
        ∧ (mkNoiseIncident i a).alerts = [a] :=
  ⟨List.perm_insertionSort _ _, fun _ _ => ⟨rfl, rfl, rfl⟩⟩

/-- Claim C5, amended: the batch-local categorical encoding is a
strictly monotone relabelling: positions carry equal codes exactly when
they carry equal values, and the integer order of the codes is the
lexicographic order of the values — integers are assigned in ascending
sorted order of the distinct values, not first-seen order. -/
theorem claim5_sorted_encoding (vals : List Str) (i j : ℕ)
    (hi : i < vals.length) (hj : j < vals.length) :
    ((labelEncode vals).getD i 0 = (labelEncode vals).getD j 0
      ↔ vals.getD i [] = vals.getD j [])
    ∧ ((labelEncode vals).getD i 0 < (labelEncode vals).getD j 0
      ↔ vals.getD i [] < vals.getD j []) := by
  have hi' : i < (labelEncode vals).length := by simpa [labelEncode] using hi
  have hj' : j < (labelEncode vals).length := by simpa [labelEncode] using hj
  have hgi : (labelEncode vals).getD i 0 = idxOf vals[i] (sortedClasses vals) := by
    rw [List.getD_eq_getElem _ _ hi']
    simp [labelEncode]
  have hgj : (labelEncode vals).getD j 0 = idxOf vals[j] (sortedClasses vals) := by
    rw [List.getD_eq_getElem _ _ hj']
    simp [labelEncode]
  have hvi : vals[i] ∈ sortedClasses vals := by
    rw [sortedClasses, sortedAsc, List.mem_insertionSort, List.mem_dedup]
    exact List.getElem_mem hi
  have hvj : vals[j] ∈ sortedClasses vals := by
    rw [sortedClasses, sortedAsc, List.mem_insertionSort, List.mem_dedup]
    exact List.getElem_mem hj
  rw [hgi, hgj, List.getD_eq_getElem _ _ hi, List.getD_eq_getElem _ _ hj]
  exact ⟨idxOf_inj_of_mem hvi hvj,
    idxOf_lt_iff_of_strictSorted (sortedClasses_strictSorted vals) hvi hvj⟩

/-- Claim C5, witness: the amended statement instantiated on the batch
with values B then A. -/
theorem claim5_witness :
    0 < (["B".data, "A".data] : List Str).length
    ∧ 1 < (["B".data, "A".data] : List Str).length
    ∧ (((labelEncode ["B".data, "A".data]).getD 0 0 = (labelEncode ["B".data, "A".data]).getD 1 0
        ↔ (["B".data, "A".data] : List Str).getD 0 [] = (["B".data, "A".data] : List Str).getD 1 [])
      ∧ ((labelEncode ["B".data, "A".data]).getD 0 0 < (labelEncode ["B".data, "A".data]).getD 1 0
        ↔ (["B".data, "A".data] : List Str).getD 0 [] < (["B".data, "A".data] : List Str).getD 1 [])) :=
  ⟨by decide, by decide, claim5_sorted_encoding ["B".data, "A".data] 0 1 (by decide) (by decide)⟩

/-- Claim C5, counterexample: on the batch with values B then A the code
encodes B as 1 and A as 0 (sorted order), while first-seen order would
encode B as 0 and A as 1. -/
theorem claim5_counterexample :
    labelEncode ["B".data, "A".data] ≠ firstSeenEncode ["B".data, "A".data]
    ∧ labelEncode ["B".data, "A".data] = [1, 0]
    ∧ firstSeenEncode ["B".data, "A".data] = [0, 1] := by decide

/-- Claim C6, amended: the primary error of every cluster incident is a
member error code of maximal multiplicity, and among the codes of
maximal multiplicity it is the least in lexicographic order — ties are
broken towards the smallest value, not the first-encountered one. -/
theorem claim6_mode_tiebreak (alerts : List Alert) (labels : List ℤ)
    (hlen : labels.length = alerts.length) (inc : Incident)
    (hinc : inc ∈ rawClusterIncidents alerts labels) :
    inc.primary_error ∈ inc.alerts.map Alert.error_code
    ∧ (∀ v ∈ inc.alerts.map Alert.error_code,
        (inc.alerts.map Alert.error_code).count v
          ≤ (inc.alerts.map Alert.error_code).count inc.primary_error)
    ∧ ∀ v ∈ inc.alerts.map Alert.error_code,
        (inc.alerts.map Alert.error_code).count v
          = (inc.alerts.map Alert.error_code).count inc.primary_error
        → inc.primary_error ≤ v := by
  rw [rawClusterIncidents] at hinc
  obtain ⟨p, hp, rfl⟩ := List.mem_map.mp hinc
  have hc : p.2 ∈ clusterLabelsSorted labels := by
    have h1 := List.mem_map_of_mem Prod.snd hp
    rwa [List.enum_map_snd] at h1
  have hcl : p.2 ∈ labels := (mem_clusterLabelsSorted.mp hc).1
  obtain ⟨i, hi, hgi⟩ := List.mem_iff_getElem.mp hcl
  have hz : i < (alerts.zip labels).length := by
    rw [List.length_zip]
    omega
  have hpair : (alerts[i], p.2) ∈ alerts.zip labels := by
    have h1 := @List.getElem_zip Alert ℤ alerts labels i hz
    rw [hgi] at h1
    exact h1 ▸ List.getElem_mem hz
  have hmem : alerts[i] ∈ clusterMembers alerts labels p.2 :=
    List.mem_map_of_mem _ (List.mem_filter.mpr ⟨hpair, by simp⟩)
  have herrs : (clusterMembers alerts labels p.2).map Alert.error_code ≠ [] := by
    simpa using List.ne_nil_of_mem hmem
  have h := pandasMode_spec _ herrs
  simpa [mkClusterIncident] using h

/-- Claim C6, witness: the amended statement instantiated on a
two-alert cluster with tied error codes B and A. -/
theorem claim6_witness :
    ([(0:ℤ), 0] : List ℤ).length = ([exAlertB, exAlertA] : List Alert).length
    ∧ exClusterInc ∈ rawClusterIncidents [exAlertB, exAlertA] [0, 0]
    ∧ (exClusterInc.primary_error ∈ exClusterInc.alerts.map Alert.error_code
      ∧ (∀ v ∈ exClusterInc.alerts.map Alert.error_code,
          (exClusterInc.alerts.map Alert.error_code).count v
            ≤ (exClusterInc.alerts.map Alert.error_code).count exClusterInc.primary_error)
      ∧ ∀ v ∈ exClusterInc.alerts.map Alert.error_code,
          (exClusterInc.alerts.map Alert.error_code).count v
            = (exClusterInc.alerts.map Alert.error_code).count exClusterInc.primary_error
          → exClusterInc.primary_error ≤ v) :=
  ⟨rfl, by decide, claim6_mode_tiebreak [exAlertB, exAlertA] [0, 0] rfl exClusterInc (by decide)⟩

/-- Claim C6, counterexample: the cluster of exAlertB then exAlertA has
both error codes tied at one occurrence; the first-encountered tie-break
would pick B, the code picks A (pandas mode sorted ascending). -/
theorem claim6_counterexample :
    ∃ inc ∈ create_incidents [exAlertB, exAlertA] [0, 0],
      inc.primary_error ≠ firstMode (inc.alerts.map Alert.error_code) := by decide

/-- Claim C7, amended: estimation fails exactly on batches of fewer than
minPts vectors (sklearn requires n_neighbors at most n_samples, the
point counting itself); the failure is surfaced by cluster_alerts as the
estimation error, so no clustering runs. -/
theorem claim7_small_batch (features : List (List ℝ)) (minPts : ℕ)
    (h : features.length < minPts) :
    find_optimal_eps features minPts = none
    ∧ cluster_alerts features none minPts = Except.error CorrErr.estimation := by
  have h1 : find_optimal_eps features minPts = none := by
    rw [find_optimal_eps, if_pos (Or.inr h)]
  exact ⟨h1, by simp [cluster_alerts, h1]⟩

/-- Claim C7, witness: the amended statement instantiated on a
one-vector batch with minPts 2. -/
theorem claim7_witness :
    ([[(0:ℝ)]] : List (List ℝ)).length < 2
    ∧ (find_optimal_eps [[(0:ℝ)]] 2 = none
      ∧ cluster_alerts [[(0:ℝ)]] none 2 = Except.error CorrErr.estimation) :=
  ⟨by norm_num, claim7_small_batch [[(0:ℝ)]] 2 (by norm_num)⟩

/-- Claim C7, counterexample: a batch of exactly minPts vectors has
fewer than minPts + 1 vectors, yet estimation succeeds — with two
one-dimensional points and minPts 2 the code returns eps 1 instead of
failing, because each point is its own first neighbor. -/
theorem claim7_counterexample :
    ([[(0:ℝ)], [1]] : List (List ℝ)).length < 2 + 1
    ∧ find_optimal_eps [[(0:ℝ)], [1]] 2 = some 1 := by
  constructor
  · norm_num
  · norm_num [find_optimal_eps, kDistances, euclDist_single, sortedAsc, percentile75,
      List.insertionSort, List.orderedInsert, abs_of_nonpos, abs_of_nonneg]

/-- Claim C8, amended: the public entry point takes only the loaded
batch; it behaves exactly like the specified parameterized entry point
frozen at minPts 5 with no eps override, and returns the ranked
incident list. -/
theorem claim8_entry_point (alerts : List Alert) :
    correlate_alerts alerts = correlate_alerts_spec alerts 5 none := rfl

/-- Claim C8, counterexample: on a one-alert batch the actual entry
point always fails with the estimation error — it accepts no eps
override — while the entry point the specification describes, invoked
with minPts 1 and an explicit eps, succeeds. -/
theorem claim8_counterexample :
    correlate_alerts [exSoloAlert] = Except.error CorrErr.estimation
    ∧ correlate_alerts_spec [exSoloAlert] 1 (some 1) ≠ Except.error CorrErr.estimation := by
  constructor
  · have hlen : (preprocess_features [exSoloAlert]).length = 1 := by
      simp [preprocess_features, standardize, rawFeatureRows]
    have h1 : find_optimal_eps (preprocess_features [exSoloAlert]) 5 = none := by
      rw [find_optimal_eps, if_pos (Or.inr (by rw [hlen]; norm_num))]
    simp [correlate_alerts, cluster_alerts, h1]
  · simp [correlate_alerts_spec, cluster_alerts]

/-- Claim C9, confirmed: for every batch and label assignment of the
same length, the member lists of the produced incidents, concatenated,
are a permutation of the batch — every alert lands in exactly one
incident. -/
theorem claim9_partition (alerts : List Alert) (labels : List ℤ)
    (h : labels.length = alerts.length) :
    (((create_incidents alerts labels).map Incident.alerts).flatten).Perm alerts := by
  have hperm : (create_incidents alerts labels).Perm (rawIncidents alerts labels) :=
    List.perm_insertionSort _ _
  refine ((hperm.map Incident.alerts).flatten).trans ?_
  rw [rawIncidents, List.map_append, List.flatten_append, rawNoise_alerts_flatten]
  refine ((rawCluster_alerts_perm alerts labels).append_right _).trans ?_
  rw [noiseAlerts]
  have heq : (alerts.zip labels).filter (fun p => decide (p.2 = -1))
      = (alerts.zip labels).filter (fun p => !(decide (p.2 ≠ -1))) := by
    refine List.filter_congr ?_
    intro x _
    by_cases hx : x.2 = -1 <;> simp [hx]
  rw [heq, ← List.map_append]
  have hfa := (List.filter_append_perm (fun p => decide (p.2 ≠ -1)) (alerts.zip labels)).map
    Prod.fst
  refine hfa.trans ?_
  rw [List.map_fst_zip _ _ (le_of_eq h.symm)]

/-- Claim C9, witness: the partition property instantiated on the
two-alert batch with two singleton clusters. -/
theorem claim9_witness :
    ([(0:ℤ), 1] : List ℤ).length = ([exAlertLow, exAlertHigh] : List Alert).length
    ∧ (((create_incidents [exAlertLow, exAlertHigh] [0, 1]).map Incident.alerts).flatten).Perm
        [exAlertLow, exAlertHigh] :=
  ⟨rfl, claim9_partition [exAlertLow, exAlertHigh] [0, 1] rfl⟩

/-- Claim C10, confirmed: a zero-variance feature column is normalized
to 0 for every row: the scaler replaces the zero standard deviation by
1 and every entry of such a column equals the column mean.  The model
is a total function, mirroring that sklearn raises no division fault. -/
theorem claim10_zero_variance (rows : List (List ℝ)) (j : ℕ) (h : colVar rows j = 0) :
    ∀ r ∈ standardize rows, r.getD j 0 = 0 := by
  intro r hr
  rw [standardize] at hr
  obtain ⟨orig, horig, rfl⟩ := List.mem_map.mp hr
  by_cases hj : j < orig.length
  · rw [List.getD_eq_getElem _ _ (by simpa using hj)]
    simp only [List.getElem_map, List.getElem_range]
    have hscale : colScale rows j = 1 := by
      rw [colScale, if_pos h]
    rw [hscale, div_one]
    have hn : rows.length ≠ 0 := by
      intro h0
      rw [List.length_eq_zero] at h0
      subst h0
      cases horig
    have hsum : ((rows.map (fun r => (r.getD j 0 - colMean rows j)^2)).sum) = 0 := by
      rw [colVar, div_eq_zero_iff] at h
      rcases h with h | h
      · exact h
      · exact absurd (by exact_mod_cast h) hn
    have hz : ∀ x ∈ rows.map (fun r => r.getD j 0 - colMean rows j), x = 0 := by
      apply sum_sq_eq_zero
      rw [List.map_map]
      exact hsum
    exact hz _ (List.mem_map_of_mem _ horig)
  · rw [List.getD_eq_default]
    simpa using hj

/-- Claim C10, witness: the zero-variance batch of two identical
one-column rows normalizes the column to 0. -/
theorem claim10_witness :
    colVar [[(5:ℝ)], [5]] 0 = 0 ∧ ∀ r ∈ standardize [[(5:ℝ)], [5]], r.getD 0 0 = 0 := by
  have h : colVar [[(5:ℝ)], [5]] 0 = 0 := by
    norm_num [colVar, colMean]
  exact ⟨h, claim10_zero_variance [[(5:ℝ)], [5]] 0 h⟩

end SIPO
